import Mathlib

/-!
Shallow embedding of the WriteFlow AI backend (`src/main.py`): the per-token
sliding-window rate limiter, the bearer-token authorization gate, the prompt
composers of the three endpoints, and the upstream-call error mapping.
Timestamps are modeled as integers (time units); the in-memory dict
`_rate_limit` is modeled as a function from tokens to an optional timestamp
list, `None` standing for an absent key.
-/

namespace WriteFlow

def RATE_LIMIT_WINDOW : Int := 60

def RATE_LIMIT_MAX : Nat := 20

/-- The prune step of `_check_rate_limit`:
`hits[:] = [t for t in hits if now - t < RATE_LIMIT_WINDOW]`. -/
def pruneHits (now : Int) (hits : List Int) : List Int :=
  hits.filter fun t => now - t < RATE_LIMIT_WINDOW

/-- The single-token core of `_check_rate_limit`: prune, then either reject
(when the pruned count has reached `RATE_LIMIT_MAX`) or append `now`.
Returns the new stored list and `true` iff the request is admitted. -/
def rlStep (hits : List Int) (now : Int) : List Int × Bool :=
  let pruned := pruneHits now hits
  if RATE_LIMIT_MAX ≤ pruned.length then (pruned, false)
  else (pruned ++ [now], true)

/-- The `_rate_limit` dict: token -> stored timestamp list (none = absent). -/
def RLMap : Type := String → Option (List Int)

def RLMap.update (st : RLMap) (token : String) (hits : List Int) : RLMap :=
  fun token' => if token' = token then some hits else st token'

/-- `_check_rate_limit(token)` at time `now`: `setdefault(token, [])`, prune in
place, reject or append.  After the call the dict always holds an entry for
`token`.  Returns the new dict and `true` iff admitted (no exception). -/
def _check_rate_limit (st : RLMap) (token : String) (now : Int) : RLMap × Bool :=
  let r := rlStep ((st token).getD []) now
  (st.update token r.1, r.2)

/-- Outcome of `_authorize`: either an `HTTPException(status, detail)` or the
validated token. -/
inductive AuthOutcome where
  | err (status : Nat) (detail : String)
  | authorized (token : String)
deriving DecidableEq

/-- Python `str.split()` (no separator): split on whitespace runs, dropping
empty pieces.  Structural recursion over the character list so that the
kernel can evaluate it. -/
def splitWsAux (acc : List Char) : List Char → List String
  | [] => if acc.isEmpty then [] else [String.mk acc.reverse]
  | c :: cs =>
    if c.isWhitespace then
      (if acc.isEmpty then [] else [String.mk acc.reverse]) ++ splitWsAux [] cs
    else splitWsAux (c :: acc) cs

def pySplit (s : String) : List String := splitWsAux [] s.data

/-- Python `str.lower()` (ASCII range suffices for the header scheme). -/
def pyLower (s : String) : String := String.mk (s.data.map Char.toLower)

/-- `_authorize(authorization)` at time `now`, with Token Registry `valid`:
presence/shape check, then membership, then the rate limiter. -/
def _authorize (valid : List String) (st : RLMap) (authorization : Option String)
    (now : Int) : RLMap × AuthOutcome :=
  match authorization with
  | none => (st, .err 401 "Missing Authorization header")
  | some s =>
    if s = "" then (st, .err 401 "Missing Authorization header")
    else
      match pySplit s with
      | [scheme, token] =>
        if pyLower scheme = "bearer" then
          if token ∈ valid then
            let r := _check_rate_limit st token now
            if r.2 then (r.1, .authorized token)
            else (r.1, .err 429 "Rate limit exceeded. Please wait before making more requests.")
          else (st, .err 403 "Invalid access token")
        else (st, .err 401 "Invalid Authorization format. Use: Bearer <token>")
      | _ => (st, .err 401 "Invalid Authorization format. Use: Bearer <token>")

/-- Specification-side view of the header shape check: the token carried by a
well-formed `Bearer <token>` header, `none` when malformed. -/
def parseBearer (s : String) : Option String :=
  match pySplit s with
  | [scheme, token] => if pyLower scheme = "bearer" then some token else none
  | _ => none

/-- Python string truthiness for `Optional[str]` fields: `None` and `""` are
falsy. -/
def pyTruthy : Option String → Bool
  | none => false
  | some s => s ≠ ""

/-- Python `{x}` f-string rendering of an `Optional[str]`: `None` prints as
the text `None`. -/
def pyInterp : Option String → String
  | none => "None"
  | some s => s

/-- The `SYSTEM_PROMPTS` table, keyed by content type. -/
def SYSTEM_PROMPTS (ty : String) : Option String :=
  if ty = "blog" then some
    ("You are an expert blog writer and SEO specialist. " ++
     "Write engaging, well-structured blog content with proper headings (using Markdown), " ++
     "subheadings, bullet points, and a compelling introduction and conclusion. " ++
     "Optimize for readability and SEO. Include a meta description suggestion at the end.")
  else if ty = "product" then some
    ("You are a world-class copywriter specializing in product descriptions. " ++
     "Write compelling, benefit-driven product descriptions that convert. " ++
     "Use power words, highlight key features and benefits, include a call-to-action. " ++
     "Format with Markdown for readability.")
  else if ty = "email" then some
    ("You are an email marketing expert with high conversion rates. " ++
     "Write professional, engaging emails with a clear subject line suggestion, " ++
     "compelling body, and strong call-to-action. " ++
     "Format with Markdown. Include subject line at the top.")
  else if ty = "social" then some
    ("You are a social media content strategist. " ++
     "Create engaging social media posts optimized for engagement. " ++
     "Include relevant hashtag suggestions, emoji usage where appropriate, " ++
     "and format for maximum impact. Provide variations for different platforms " ++
     "(Twitter/X, LinkedIn, Instagram) in Markdown format.")
  else none

/-- System-instruction composition of `generate_content` (lines 197-201):
base prompt for the type, then the tone suffix when `body.tone` is truthy and
differs from `"professional"`, then the language suffix when `body.language`
is truthy and differs from `"en"`. -/
def generate_system (ty : String) (tone language : Option String) : String :=
  let s0 := (SYSTEM_PROMPTS ty).getD ""
  let s1 := if pyTruthy tone && (tone != some "professional")
            then s0 ++ "\n\nUse a " ++ pyInterp tone ++ " tone throughout."
            else s0
  if pyTruthy language && (language != some "en")
  then s1 ++ "\n\nWrite the content in " ++ pyInterp language ++ "."
  else s1

/-- The `style_instructions` dict of `rewrite_content`. -/
def style_instructions (s : String) : Option String :=
  if s = "improved" then some "Improve the clarity, flow, and impact while keeping the original meaning."
  else if s = "formal" then some "Rewrite in a formal, professional tone."
  else if s = "casual" then some "Rewrite in a casual, conversational tone."
  else if s = "concise" then some "Make it significantly more concise while keeping key points."
  else if s = "expanded" then some "Expand with more detail, examples, and depth."
  else none

/-- `style_instructions.get(body.style or "improved", style_instructions["improved"])`. -/
def rewrite_instruction (style : Option String) : String :=
  let key := if pyTruthy style then pyInterp style else "improved"
  (style_instructions key).getD
    "Improve the clarity, flow, and impact while keeping the original meaning."

/-- System instruction of `rewrite_content` (lines 223-228). -/
def rewrite_system (style : Option String) : String :=
  "You are an expert editor and writing coach. " ++
  rewrite_instruction style ++ " " ++
  "Return the rewritten text in Markdown format. " ++
  "After the rewrite, add a brief \x27---\\n**Changes made:**\x27 section listing key improvements."

/-- User message of `rewrite_content` (line 230). -/
def rewrite_user (text : String) : String :=
  "Please rewrite the following text:\n\n" ++ text

/-- System instruction of `translate_content` (lines 241-249). -/
def translate_system : String :=
  "You are a professional translator fluent in all major languages. " ++
  "Provide accurate, natural-sounding translations that preserve the original tone and meaning. " ++
  "If the source language is Chinese, translate to English. " ++
  "If the source language is English, translate to Chinese. " ++
  "For other language pairs, follow the user\x27s instructions. " ++
  "Format the output in Markdown. After the translation, add a brief note about any " ++
  "cultural or contextual adaptations you made."

/-- User message of `translate_content` (lines 251-253): raw text when
`source_lang == "auto"`, otherwise the explicit translate instruction. -/
def translate_user (text : String) (source_lang target_lang : Option String) : String :=
  if source_lang != some "auto" then
    "Translate from " ++ pyInterp source_lang ++ " to " ++ pyInterp target_lang ++
    ":\n\n" ++ text
  else text

/-- The normalized `AIResponse` model (content, usage triple, model id). -/
structure AIResponse where
  content : String
  prompt_tokens : Nat
  completion_tokens : Nat
  total_tokens : Nat
  model : String
deriving DecidableEq

/-- What the upstream provider call can come back with: a completion (whose
message content, usage object and model field may each be absent), a
`RateLimitError`, an `APIError`, or any other exception. -/
inductive UpstreamOutcome where
  | success (content : Option String) (usage : Option (Nat × Nat × Nat)) (model : Option String)
  | rateLimitError
  | apiError (msg : String)
  | otherException (msg : String)

/-- Result of a handler body: a 200 `AIResponse` or an `HTTPException`. -/
inductive HandlerResult where
  | ok (r : AIResponse)
  | error (status : Nat) (detail : String)
deriving DecidableEq

/-- Python `a or b` on a string-or-None `a`. -/
def pyOrStr (a : Option String) (b : String) : String :=
  match a with
  | none => b
  | some s => if s = "" then b else s

/-- `_call_openai` (lines 157-183), with the upstream call abstracted by an
`UpstreamOutcome`.  `mcfg` is the configured `MODEL` string. -/
def _call_openai (mcfg : String) (outcome : UpstreamOutcome) : HandlerResult :=
  match outcome with
  | .success content usage model =>
    .ok { content := pyOrStr content ""
          prompt_tokens := match usage with | none => 0 | some u => u.1
          completion_tokens := match usage with | none => 0 | some u => u.2.1
          total_tokens := match usage with | none => 0 | some u => u.2.2
          model := pyOrStr model mcfg }
  | .rateLimitError => .error 429 "OpenAI rate limit reached. Please try again shortly."
  | .apiError msg => .error 502 ("OpenAI API error: " ++ msg)
  | .otherException msg => .error 500 ("Internal error: " ++ msg)

/-- Validated body of POST /api/generate. -/
structure GenerateRequest where
  type : String
  prompt : String
  tone : Option String
  language : Option String

/-- Validated body of POST /api/rewrite. -/
structure RewriteRequest where
  text : String
  style : Option String

/-- Validated body of POST /api/translate. -/
structure TranslateRequest where
  text : String
  source_lang : Option String
  target_lang : Option String

/-- `generate_content`: gate, compose, call.  Besides the new limiter state
and the result, it returns the (system, user) pair sent to the Completion
Client (`none` when the gate rejected the request before any upstream call). -/
def generate_content (valid : List String) (st : RLMap) (authorization : Option String)
    (now : Int) (body : GenerateRequest) (mcfg : String) (upstream : UpstreamOutcome) :
    RLMap × Option (String × String) × HandlerResult :=
  match _authorize valid st authorization now with
  | (st', .authorized _) =>
    let system := generate_system body.type body.tone body.language
    (st', some (system, body.prompt), _call_openai mcfg upstream)
  | (st', .err code detail) => (st', none, .error code detail)

/-- `rewrite_content`: gate, compose, call. -/
def rewrite_content (valid : List String) (st : RLMap) (authorization : Option String)
    (now : Int) (body : RewriteRequest) (mcfg : String) (upstream : UpstreamOutcome) :
    RLMap × Option (String × String) × HandlerResult :=
  match _authorize valid st authorization now with
  | (st', .authorized _) =>
    (st', some (rewrite_system body.style, rewrite_user body.text), _call_openai mcfg upstream)
  | (st', .err code detail) => (st', none, .error code detail)

/-- `translate_content`: gate, compose, call. -/
def translate_content (valid : List String) (st : RLMap) (authorization : Option String)
    (now : Int) (body : TranslateRequest) (mcfg : String) (upstream : UpstreamOutcome) :
    RLMap × Option (String × String) × HandlerResult :=
  match _authorize valid st authorization now with
  | (st', .authorized _) =>
    (st', some (translate_system, translate_user body.text body.source_lang body.target_lang),
     _call_openai mcfg upstream)
  | (st', .err code detail) => (st', none, .error code detail)

/-!  Trace semantics of the rate limiter on a single token: a sequence of
gate checks at given times, threaded through `rlStep`. -/

/-- Outcomes (admitted?) of a sequence of checks started from `hits`. -/
def runOutcomes (hits : List Int) : List Int → List Bool
  | [] => []
  | now :: rest => (rlStep hits now).2 :: runOutcomes (rlStep hits now).1 rest

/-- Times of the admitted checks of a sequence of checks started from `hits`. -/
def admittedTimes (hits : List Int) : List Int → List Int
  | [] => []
  | now :: rest =>
    (if (rlStep hits now).2 then [now] else []) ++ admittedTimes (rlStep hits now).1 rest

/-- Number of entries of `l` inside the trailing window `(T - 60, T]`. -/
def windowCount (l : List Int) (T : Int) : Nat :=
  (l.filter fun t => T - t < RATE_LIMIT_WINDOW ∧ t ≤ T).length

lemma rlStep_reject {hits : List Int} {now : Int}
    (h : RATE_LIMIT_MAX ≤ (pruneHits now hits).length) :
    rlStep hits now = (pruneHits now hits, false) := by
  unfold rlStep; simp [h]

lemma rlStep_accept {hits : List Int} {now : Int}
    (h : (pruneHits now hits).length < RATE_LIMIT_MAX) :
    rlStep hits now = (pruneHits now hits ++ [now], true) := by
  unfold rlStep; simp [Nat.not_le.mpr h]

lemma length_filter_mono {l : List Int} {p q : Int → Bool}
    (h : ∀ t ∈ l, p t = true → q t = true) :
    (l.filter p).length ≤ (l.filter q).length := by
  induction l with
  | nil => simp
  | cons x xs ih =>
    have ih' : (xs.filter p).length ≤ (xs.filter q).length :=
      ih fun t ht hp => h t (List.mem_cons_of_mem _ ht) hp
    cases hp : p x with
    | true =>
      have hq : q x = true := h x (List.mem_cons_self x xs) hp
      simp [List.filter_cons, hp, hq]
      omega
    | false =>
      cases hq : q x with
      | true =>
        simp [List.filter_cons, hp, hq]
        omega
      | false =>
        simp [List.filter_cons, hp, hq]
        omega

lemma pruneHits_pruneHits {last now : Int} (h : last ≤ now) (l : List Int) :
    pruneHits now (pruneHits last l) = pruneHits now l := by
  unfold pruneHits
  rw [List.filter_filter]
  apply List.filter_congr
  intro t _
  by_cases hn : now - t < RATE_LIMIT_WINDOW
  · have hl : last - t < RATE_LIMIT_WINDOW := by omega
    simp [hn, hl]
  · simp [hn]

lemma windowCount_append (l1 l2 : List Int) (T : Int) :
    windowCount (l1 ++ l2) T = windowCount l1 T + windowCount l2 T := by
  unfold windowCount
  rw [List.filter_append, List.length_append]

lemma windowCount_nil (T : Int) : windowCount [] T = 0 := rfl

lemma windowCount_le_prune {admitted : List Int} {now T : Int}
    (_ : ∀ a ∈ admitted, a ≤ now) (hnT : now ≤ T) :
    windowCount admitted T ≤ (pruneHits now admitted).length := by
  unfold windowCount pruneHits
  apply length_filter_mono
  intro t ht hp
  simp only [decide_eq_true_eq] at hp ⊢
  omega

/-- Invariant-carrying induction for the sliding-window cap: `admitted` are
the already-admitted times (all ≤ `last`), `hits` is the stored list, and
every trailing window already holds at most `RATE_LIMIT_MAX` admitted times;
then running further checks at sorted times ≥ `last` preserves the cap. -/
lemma cap_aux : ∀ (times admitted hits : List Int) (last : Int),
    List.Sorted (· ≤ ·) times →
    (∀ t ∈ times, last ≤ t) →
    (∀ a ∈ admitted, a ≤ last) →
    hits = pruneHits last admitted →
    (∀ T, windowCount admitted T ≤ RATE_LIMIT_MAX) →
    ∀ T, windowCount (admitted ++ admittedTimes hits times) T ≤ RATE_LIMIT_MAX := by
  intro times
  induction times with
  | nil =>
    intro admitted hits last _ _ _ _ H T
    simpa [admittedTimes] using H T
  | cons now rest ih =>
    intro admitted hits last hsort hfirst hadm hhits H T
    have hlastnow : last ≤ now := hfirst now (by simp)
    have hrest_sorted : List.Sorted (· ≤ ·) rest := (List.sorted_cons.mp hsort).2
    have hnow_rest : ∀ t ∈ rest, now ≤ t := (List.sorted_cons.mp hsort).1
    have hpruned : pruneHits now hits = pruneHits now admitted := by
      rw [hhits, pruneHits_pruneHits hlastnow]
    by_cases hfull : RATE_LIMIT_MAX ≤ (pruneHits now hits).length
    · have hAT : admittedTimes hits (now :: rest)
          = admittedTimes (pruneHits now hits) rest := by
        simp [admittedTimes, rlStep_reject hfull]
      rw [hAT, hpruned]
      exact ih admitted (pruneHits now admitted) now hrest_sorted hnow_rest
        (fun a ha => le_trans (hadm a ha) hlastnow) rfl H T
    · push_neg at hfull
      have hcount : ∀ T', windowCount (admitted ++ [now]) T' ≤ RATE_LIMIT_MAX := by
        intro T'
        rw [windowCount_append]
        by_cases hw : T' - now < RATE_LIMIT_WINDOW ∧ now ≤ T'
        · have h1 : windowCount [now] T' = 1 := by
            unfold windowCount
            rw [List.filter_singleton]
            simp [hw.1, hw.2]
          have h2 : windowCount admitted T' ≤ (pruneHits now admitted).length :=
            windowCount_le_prune (fun a ha => le_trans (hadm a ha) hlastnow) hw.2
          rw [hpruned] at hfull
          omega
        · have h1 : windowCount [now] T' = 0 := by
            unfold windowCount
            rw [List.filter_singleton]
            have hw' : ¬ (T' - now < RATE_LIMIT_WINDOW ∧ now ≤ T') := hw
            simp [hw']
          have := H T'
          omega
      have hAT : admittedTimes hits (now :: rest)
          = now :: admittedTimes (pruneHits now hits ++ [now]) rest := by
        simp [admittedTimes, rlStep_accept hfull]
      rw [hAT]
      have assoc : admitted ++ now :: admittedTimes (pruneHits now hits ++ [now]) rest
          = (admitted ++ [now]) ++ admittedTimes (pruneHits now hits ++ [now]) rest := by
        simp
      rw [assoc]
      refine ih (admitted ++ [now]) (pruneHits now hits ++ [now]) now hrest_sorted hnow_rest
        ?_ ?_ hcount T
      · intro a ha
        rcases List.mem_append.mp ha with h | h
        · exact le_trans (hadm a h) hlastnow
        · simp at h; omega
      · rw [hpruned]
        unfold pruneHits
        rw [List.filter_append, List.filter_singleton]
        simp [RATE_LIMIT_WINDOW]

/-- When every stored timestamp is within the window of every upcoming check
time, and all check times lie within one window of each other, the checks
behave like a plain counter: the i-th check is admitted iff
`hits.length + i < RATE_LIMIT_MAX`. -/
lemma runOutcomes_fresh : ∀ (times hits : List Int),
    (∀ t ∈ hits, ∀ s ∈ times, s - t < RATE_LIMIT_WINDOW) →
    (∀ a ∈ times, ∀ b ∈ times, a - b < RATE_LIMIT_WINDOW) →
    runOutcomes hits times
      = (List.range times.length).map (fun i => decide (hits.length + i < RATE_LIMIT_MAX)) := by
  intro times
  induction times with
  | nil => intro hits _ _; rfl
  | cons now rest ih =>
    intro hits hfresh hspread
    have hkeep : pruneHits now hits = hits := by
      unfold pruneHits
      apply List.filter_eq_self.mpr
      intro t ht
      simpa using hfresh t ht now (by simp)
    by_cases hfull : RATE_LIMIT_MAX ≤ hits.length
    · have hstep : rlStep hits now = (hits, false) := by
        have := @rlStep_reject hits now (by rw [hkeep]; exact hfull)
        rwa [hkeep] at this
      have htail := ih hits
        (fun t ht s hs => hfresh t ht s (by simp [hs]))
        (fun a ha b hb => hspread a (by simp [ha]) b (by simp [hb]))
      simp only [runOutcomes, hstep, htail]
      rw [List.length_cons, List.range_succ_eq_map, List.map_cons, List.map_map]
      simp only [List.cons.injEq]
      constructor
      · simp [Nat.not_lt.mpr hfull]
      · apply List.map_congr_left
        intro i _
        simp only [Function.comp_apply]
        have h1 : ¬ (hits.length + i < RATE_LIMIT_MAX) := by omega
        have h2 : ¬ (hits.length + i.succ < RATE_LIMIT_MAX) := by omega
        simp [h1, h2]
    · push_neg at hfull
      have hstep : rlStep hits now = (hits ++ [now], true) := by
        have := @rlStep_accept hits now (by rw [hkeep]; exact hfull)
        rwa [hkeep] at this
      have htail := ih (hits ++ [now])
        (fun t ht s hs => by
          rcases List.mem_append.mp ht with h | h
          · exact hfresh t h s (by simp [hs])
          · simp at h
            subst h
            exact hspread s (by simp [hs]) t (by simp))
        (fun a ha b hb => hspread a (by simp [ha]) b (by simp [hb]))
      simp only [runOutcomes, hstep, htail]
      rw [List.length_cons, List.range_succ_eq_map, List.map_cons, List.map_map]
      simp only [List.cons.injEq]
      constructor
      · simp [hfull]
      · apply List.map_congr_left
        intro i _
        simp only [Function.comp_apply, List.length_append, List.length_singleton]
        have : (hits.length + 1 + i < RATE_LIMIT_MAX) ↔ (hits.length + i.succ < RATE_LIMIT_MAX) := by
          omega
        simp [this]

/-- Counting view of the prune step: filtering keeps the multiplicity of every
in-window timestamp and zeroes that of every out-of-window one. -/
lemma count_filter_eq (p : Int → Bool) (l : List Int) (x : Int) :
    (l.filter p).count x = if p x then l.count x else 0 := by
  induction l with
  | nil => simp
  | cons a as ih =>
    by_cases hax : a = x
    · subst hax
      cases hpa : p a with
      | true => simp [List.filter_cons, hpa, List.count_cons, ih]
      | false => simp [List.filter_cons, hpa, List.count_cons, ih]
    · cases hpa : p a with
      | true => simp [List.filter_cons, hpa, List.count_cons, hax, ih]
      | false => simp [List.filter_cons, hpa, List.count_cons, hax, ih]

/-- Specification-side restatement of `_authorize` on a present header, keyed
by `parseBearer`. -/
def authorizeSpec (valid : List String) (st : RLMap) (s : String) (now : Int) :
    RLMap × AuthOutcome :=
  if s = "" then (st, .err 401 "Missing Authorization header")
  else
    match parseBearer s with
    | none => (st, .err 401 "Invalid Authorization format. Use: Bearer <token>")
    | some token =>
      if token ∈ valid then
        ((_check_rate_limit st token now).1,
         if (_check_rate_limit st token now).2 then .authorized token
         else .err 429 "Rate limit exceeded. Please wait before making more requests.")
      else (st, .err 403 "Invalid access token")

lemma authorize_eq_spec (valid : List String) (st : RLMap) (s : String) (now : Int) :
    _authorize valid st (some s) now = authorizeSpec valid st s now := by
  unfold _authorize authorizeSpec parseBearer
  dsimp only
  by_cases hs : s = ""
  · simp [hs]
  · rw [if_neg hs, if_neg hs]
    rcases hsplit : pySplit s with _ | ⟨a, _ | ⟨b, _ | _⟩⟩
    · rfl
    · rfl
    · by_cases hb : pyLower a = "bearer" <;> by_cases hmem : b ∈ valid <;>
        by_cases hrl : (_check_rate_limit st b now).2 = true <;>
        simp [hb, hmem, hrl]
    · rfl

/-- Claim C1: the rate-limiter check first discards exactly the recorded
timestamps `t` with `now - t ≥ 60` (the multiplicity of every timestamp at or
beyond the `now - WINDOW` boundary drops to zero, every strictly-in-window
timestamp keeps its multiplicity); then, if the remaining count is ≥ 20 it
fails without appending, and otherwise it appends `now` and succeeds. -/
theorem C1_prune_then_guard (st : RLMap) (token : String) (now : Int) :
    (∀ x : Int, (pruneHits now ((st token).getD [])).count x
        = if RATE_LIMIT_WINDOW ≤ now - x then 0 else ((st token).getD []).count x)
  ∧ (RATE_LIMIT_MAX ≤ (pruneHits now ((st token).getD [])).length →
      _check_rate_limit st token now
        = (st.update token (pruneHits now ((st token).getD [])), false))
  ∧ ((pruneHits now ((st token).getD [])).length < RATE_LIMIT_MAX →
      _check_rate_limit st token now
        = (st.update token (pruneHits now ((st token).getD []) ++ [now]), true)) := by
  refine ⟨?_, ?_, ?_⟩
  · intro x
    unfold pruneHits
    rw [count_filter_eq]
    by_cases hx : now - x < RATE_LIMIT_WINDOW
    · rw [if_pos (by simpa using hx), if_neg (by omega)]
    · rw [if_neg (by simpa using hx), if_pos (by omega)]
  · intro hfull
    unfold _check_rate_limit
    rw [rlStep_reject hfull]
  · intro hroom
    unfold _check_rate_limit
    rw [rlStep_accept hroom]

/-- Witness for C1 at a concrete state containing a timestamp exactly at the
`now - WINDOW` boundary (it is pruned) and two strictly-in-window ones. -/
theorem C1_prune_then_guard_witness :
    _check_rate_limit (fun tk => if tk = "k" then some [0, 1, 60] else none) "k" 60
      = (RLMap.update (fun tk => if tk = "k" then some [0, 1, 60] else none) "k"
          (pruneHits 60 ((((fun tk => if tk = "k" then some [0, 1, 60] else none) : RLMap) "k").getD [])
            ++ [60]), true) :=
  (C1_prune_then_guard (fun tk => if tk = "k" then some [0, 1, 60] else none) "k" 60).2.2
    (by decide)

/-- Claim C2: the gate checks in order: a missing header (Python-falsy: absent
or empty) yields 401 unauthenticated; a header not of shape
`Bearer <token>` yields 401 unauthenticated; a well-formed token outside the
Token Registry yields 403 forbidden with the limiter state untouched,
whatever that state is; only a registered token reaches the rate limiter. -/
theorem C2_gate_order (valid : List String) (st : RLMap) (now : Int) :
    (_authorize valid st none now = (st, .err 401 "Missing Authorization header"))
  ∧ (_authorize valid st (some "") now = (st, .err 401 "Missing Authorization header"))
  ∧ (∀ s, s ≠ "" → parseBearer s = none →
      _authorize valid st (some s) now
        = (st, .err 401 "Invalid Authorization format. Use: Bearer <token>"))
  ∧ (∀ s token, parseBearer s = some token → token ∉ valid →
      _authorize valid st (some s) now = (st, .err 403 "Invalid access token"))
  ∧ (∀ s token, parseBearer s = some token → token ∈ valid →
      _authorize valid st (some s) now
        = ((_check_rate_limit st token now).1,
           if (_check_rate_limit st token now).2 then AuthOutcome.authorized token
           else .err 429 "Rate limit exceeded. Please wait before making more requests.")) := by
  have hempty : parseBearer "" = none := rfl
  refine ⟨rfl, rfl, ?_, ?_, ?_⟩
  · intro s hs hp
    rw [authorize_eq_spec]
    unfold authorizeSpec
    rw [if_neg hs, hp]
  · intro s token hp hmem
    have hs : s ≠ "" := by
      intro h
      rw [h, hempty] at hp
      cases hp
    rw [authorize_eq_spec]
    unfold authorizeSpec
    rw [if_neg hs, hp]
    dsimp only
    rw [if_neg hmem]
  · intro s token hp hmem
    have hs : s ≠ "" := by
      intro h
      rw [h, hempty] at hp
      cases hp
    rw [authorize_eq_spec]
    unfold authorizeSpec
    rw [if_neg hs, hp]
    dsimp only
    rw [if_pos hmem]

/-- Witness for C2: an unknown token with a well-formed header gets 403 with
the limiter state unchanged, on a registry holding only the master key. -/
theorem C2_gate_order_witness :
    _authorize ["wf_live_master_key_change_me"] (fun _ => none) (some "Bearer nope") 0
      = ((fun _ => none : RLMap), AuthOutcome.err 403 "Invalid access token") :=
  (C2_gate_order ["wf_live_master_key_change_me"] (fun _ => none) 0).2.2.2.1
    "Bearer nope" "nope" (by decide) (by decide)

/-- Claim C10: frame conditions of the gate: on unauthenticated outcomes
(missing or malformed header) and on forbidden outcomes (unknown token) the
limiter map is unchanged; on a rate-limited outcome the token entry is merely
pruned (a sublist of the old entries, nothing appended); and no check ever
modifies another token's entry. -/
theorem C10_gate_frame (valid : List String) (st : RLMap) (now : Int) :
    ((_authorize valid st none now).1 = st)
  ∧ (∀ s, parseBearer s = none → (_authorize valid st (some s) now).1 = st)
  ∧ (∀ s token, parseBearer s = some token → token ∉ valid →
      (_authorize valid st (some s) now).1 = st)
  ∧ (∀ s token, parseBearer s = some token → token ∈ valid →
      ((_authorize valid st (some s) now).2
          = .err 429 "Rate limit exceeded. Please wait before making more requests." →
        (_authorize valid st (some s) now).1 token
            = some (pruneHits now ((st token).getD []))
        ∧ (pruneHits now ((st token).getD [])).Sublist ((st token).getD []))
      ∧ (∀ token', token' ≠ token →
          (_authorize valid st (some s) now).1 token' = st token')) := by
  have hempty : parseBearer "" = none := rfl
  refine ⟨rfl, ?_, ?_, ?_⟩
  · intro s hp
    by_cases hs : s = ""
    · rw [hs]; rfl
    · rw [authorize_eq_spec]
      unfold authorizeSpec
      rw [if_neg hs, hp]
  · intro s token hp hmem
    have hs : s ≠ "" := by
      intro h
      rw [h, hempty] at hp
      cases hp
    rw [authorize_eq_spec]
    unfold authorizeSpec
    rw [if_neg hs, hp]
    dsimp only
    rw [if_neg hmem]
  · intro s token hp hmem
    have hs : s ≠ "" := by
      intro h
      rw [h, hempty] at hp
      cases hp
    have hauth : _authorize valid st (some s) now
        = ((_check_rate_limit st token now).1,
           if (_check_rate_limit st token now).2 then AuthOutcome.authorized token
           else .err 429 "Rate limit exceeded. Please wait before making more requests.") := by
      rw [authorize_eq_spec]
      unfold authorizeSpec
      rw [if_neg hs, hp]
      dsimp only
      rw [if_pos hmem]
    constructor
    · intro hlim
      have hb : (_check_rate_limit st token now).2 = false := by
        by_contra hbt
        rw [Bool.not_eq_false] at hbt
        rw [hauth] at hlim
        simp [hbt] at hlim
      have hfull : RATE_LIMIT_MAX ≤ (pruneHits now ((st token).getD [])).length := by
        by_contra hroom
        push_neg at hroom
        have := rlStep_accept hroom
        unfold _check_rate_limit at hb
        rw [this] at hb
        cases hb
      constructor
      · rw [hauth]
        unfold _check_rate_limit
        rw [rlStep_reject hfull]
        dsimp only
        unfold RLMap.update
        rw [if_pos rfl]
      · exact List.filter_sublist _
    · intro token' hne
      rw [hauth]
      unfold _check_rate_limit RLMap.update
      dsimp only
      rw [if_neg hne]

/-- Witness for C10: a malformed header leaves a nonempty limiter state
untouched. -/
theorem C10_gate_frame_witness :
    (_authorize ["k"] (fun _ => some [(5 : Int)]) (some "Token abc") 0).1
      = (fun _ => some [(5 : Int)] : RLMap) :=
  (C10_gate_frame ["k"] (fun _ => some [(5 : Int)]) 0).2.1 "Token abc" (by decide)

/-- Claim C3: for any time-ordered sequence of checks on one token starting
from an empty record, every trailing 60-unit interval contains at most 20
admitted check times; and when all check times lie within one window of each
other, the Nth check is admitted exactly when N ≤ 20 (0-indexed: `i < 20`). -/
theorem C3_sliding_window_cap (times : List Int) :
    (List.Sorted (· ≤ ·) times →
      ∀ T, windowCount (admittedTimes [] times) T ≤ RATE_LIMIT_MAX)
  ∧ ((∀ a ∈ times, ∀ b ∈ times, a - b < RATE_LIMIT_WINDOW) →
      runOutcomes [] times
        = (List.range times.length).map (fun i => decide (i < RATE_LIMIT_MAX))) := by
  constructor
  · intro hsort T
    cases times with
    | nil => simp [admittedTimes, windowCount_nil]
    | cons now rest =>
      have hfirst : ∀ t ∈ now :: rest, now ≤ t := by
        intro t ht
        rcases List.mem_cons.mp ht with rfl | h
        · exact le_refl t
        · exact (List.sorted_cons.mp hsort).1 t h
      have h := cap_aux (now :: rest) [] [] now hsort hfirst (by simp) rfl
        (fun T' => by simp [windowCount_nil]) T
      simpa using h
  · intro hspread
    have h := runOutcomes_fresh times [] (by simp) hspread
    simpa using h

/-- Witness for C3: 21 checks at the same instant admit exactly the first 20. -/
theorem C3_sliding_window_cap_witness :
    runOutcomes [] (List.replicate 21 (0 : Int))
      = (List.range (List.replicate 21 (0 : Int)).length).map
          (fun i => decide (i < RATE_LIMIT_MAX)) :=
  (C3_sliding_window_cap (List.replicate 21 (0 : Int))).2 (by decide)

/-- Claim C5: a token all of whose recorded hits are at least one full window
old (`now - t ≥ 60` for each) is admitted at `now` with its record reset to
just `[now]`; from there it behaves exactly like a fresh token, and in
particular regains a full quota of 20 admissions inside the new window. -/
theorem C5_window_reset (hits : List Int) (now : Int)
    (hold : ∀ t ∈ hits, RATE_LIMIT_WINDOW ≤ now - t) :
    rlStep hits now = ([now], true)
  ∧ (∀ rest, runOutcomes hits (now :: rest) = runOutcomes [] (now :: rest))
  ∧ (∀ rest, (∀ s ∈ rest, now ≤ s ∧ s - now < RATE_LIMIT_WINDOW) →
      runOutcomes hits (now :: rest)
        = (List.range (rest.length + 1)).map (fun i => decide (i < RATE_LIMIT_MAX))) := by
  have hprune : pruneHits now hits = [] := by
    unfold pruneHits
    rw [List.filter_eq_nil_iff]
    intro t ht
    have := hold t ht
    simp only [decide_eq_true_eq]
    omega
  have hstep : rlStep hits now = ([now], true) := by
    have hroom : (pruneHits now hits).length < RATE_LIMIT_MAX := by
      rw [hprune]; unfold RATE_LIMIT_MAX; simp
    have := rlStep_accept hroom
    rw [hprune] at this
    simpa using this
  have hstep0 : rlStep [] now = ([now], true) := by
    have hroom : (pruneHits now ([] : List Int)).length < RATE_LIMIT_MAX := by
      unfold pruneHits RATE_LIMIT_MAX; simp
    simpa using rlStep_accept hroom
  have hsame : ∀ rest, runOutcomes hits (now :: rest) = runOutcomes [] (now :: rest) := by
    intro rest
    simp only [runOutcomes, hstep, hstep0]
  refine ⟨hstep, hsame, ?_⟩
  · intro rest hrest
    have hW : (0 : Int) < RATE_LIMIT_WINDOW := by unfold RATE_LIMIT_WINDOW; omega
    have bounds : ∀ s ∈ now :: rest, now ≤ s ∧ s - now < RATE_LIMIT_WINDOW := by
      intro s hs
      rcases List.mem_cons.mp hs with rfl | h
      · exact ⟨le_refl s, by omega⟩
      · exact hrest s h
    have hspread : ∀ a ∈ now :: rest, ∀ b ∈ now :: rest, a - b < RATE_LIMIT_WINDOW := by
      intro a ha b hb
      have h1 := bounds a ha
      have h2 := bounds b hb
      omega
    rw [hsame rest]
    have h := runOutcomes_fresh (now :: rest) [] (by simp) hspread
    simpa using h

/-- Witness for C5, with the last hit exactly at the `now - WINDOW` boundary:
a check at `now = 60` with record `[0]` is admitted and resets the record. -/
theorem C5_window_reset_witness :
    rlStep [(0 : Int)] 60 = ([60], true) :=
  (C5_window_reset [(0 : Int)] 60 (by decide)).1

/-- Counterexample to C4 as stated: with 20 in-window hits recorded for the
valid token `k`, a request with header `Bearer k` passes the membership check
(it fails with 429, not 401/403), yet the token's timestamp sequence gains no
entry: it still has 20 entries afterwards, not 21. -/
theorem C4_counterexample :
    parseBearer "Bearer k" = some "k"
  ∧ ("k" ∈ ["k"])
  ∧ (_authorize ["k"]
        (fun tk => if tk = "k" then some (List.replicate 20 (0 : Int)) else none)
        (some "Bearer k") 0).2
      = AuthOutcome.err 429 "Rate limit exceeded. Please wait before making more requests."
  ∧ ¬ ((((_authorize ["k"]
          (fun tk => if tk = "k" then some (List.replicate 20 (0 : Int)) else none)
          (some "Bearer k") 0).1 "k").getD []).length
        = (List.replicate 20 (0 : Int)).length + 1)
  ∧ (((_authorize ["k"]
        (fun tk => if tk = "k" then some (List.replicate 20 (0 : Int)) else none)
        (some "Bearer k") 0).1 "k").getD []).length
      = (List.replicate 20 (0 : Int)).length := by
  decide

/-- Claim C4 (amended): for every request whose token passes the membership
check, the rate limiter is charged at the gate: when the pruned in-window
count is under the limit the token's sequence gains exactly the entry `now`,
and when the limiter rejects (count already at the limit) no entry is gained;
either way the limiter state after the handler is the gate's state,
independent of the upstream outcome (e.g. an upstream error). -/
theorem C4_gate_consumption (valid : List String) (st : RLMap) (s token : String)
    (now : Int) (hp : parseBearer s = some token) (hmem : token ∈ valid) :
    ((pruneHits now ((st token).getD [])).length < RATE_LIMIT_MAX →
      (_authorize valid st (some s) now).1 token
        = some (pruneHits now ((st token).getD []) ++ [now]))
  ∧ (RATE_LIMIT_MAX ≤ (pruneHits now ((st token).getD [])).length →
      (_authorize valid st (some s) now).1 token
        = some (pruneHits now ((st token).getD [])))
  ∧ (∀ body mcfg u1 u2,
      (generate_content valid st (some s) now body mcfg u1).1
        = (generate_content valid st (some s) now body mcfg u2).1
      ∧ (generate_content valid st (some s) now body mcfg u1).1
          = (_authorize valid st (some s) now).1)
  ∧ (∀ rbody tbody mcfg u,
      (rewrite_content valid st (some s) now rbody mcfg u).1
        = (_authorize valid st (some s) now).1
      ∧ (translate_content valid st (some s) now tbody mcfg u).1
          = (_authorize valid st (some s) now).1) := by
  have hempty : parseBearer "" = none := rfl
  have hs : s ≠ "" := by
    intro h
    rw [h, hempty] at hp
    cases hp
  have hauth : _authorize valid st (some s) now
      = ((_check_rate_limit st token now).1,
         if (_check_rate_limit st token now).2 then AuthOutcome.authorized token
         else .err 429 "Rate limit exceeded. Please wait before making more requests.") := by
    rw [authorize_eq_spec]
    unfold authorizeSpec
    rw [if_neg hs, hp]
    dsimp only
    rw [if_pos hmem]
  refine ⟨?_, ?_, ?_, ?_⟩
  · intro hroom
    rw [hauth]
    dsimp only
    unfold _check_rate_limit
    rw [rlStep_accept hroom]
    dsimp only
    unfold RLMap.update
    rw [if_pos rfl]
  · intro hfull
    rw [hauth]
    dsimp only
    unfold _check_rate_limit
    rw [rlStep_reject hfull]
    dsimp only
    unfold RLMap.update
    rw [if_pos rfl]
  · intro body mcfg u1 u2
    have hind : ∀ u : UpstreamOutcome,
        (generate_content valid st (some s) now body mcfg u).1
          = (_authorize valid st (some s) now).1 := by
      intro u
      unfold generate_content
      rw [hauth]
      cases hb : (_check_rate_limit st token now).2 <;> simp [hb]
    exact ⟨(hind u1).trans (hind u2).symm, hind u1⟩
  · intro rbody tbody mcfg u
    constructor
    · unfold rewrite_content
      rw [hauth]
      cases hb : (_check_rate_limit st token now).2 <;> simp [hb]
    · unfold translate_content
      rw [hauth]
      cases hb : (_check_rate_limit st token now).2 <;> simp [hb]

/-- Witness for the amended C4: a valid token with an empty record gains
exactly the entry `now = 5`, and the handler state equals the gate state. -/
theorem C4_gate_consumption_witness :
    (_authorize ["k"] (fun _ => none) (some "Bearer k") 5).1 "k"
      = some (pruneHits 5 ((((fun _ => none) : RLMap) "k").getD []) ++ [5]) :=
  (C4_gate_consumption ["k"] (fun _ => none) "Bearer k" "k" 5 (by decide) (by decide)).1
    (by decide)

/-- Claim C6: a rewrite style that is none of the five known styles falls back
to the "improved" instruction; the composed system instruction is exactly the
one composed for "improved", and the operation never fails (the composition
is total - there is no style-validation error path). -/
theorem C6_style_fallback (style : Option String)
    (h : ∀ k ∈ (["improved", "formal", "casual", "concise", "expanded"] : List String),
          style ≠ some k) :
    rewrite_instruction style
      = "Improve the clarity, flow, and impact while keeping the original meaning."
  ∧ rewrite_system style = rewrite_system (some "improved") := by
  have hinstr : rewrite_instruction style
      = "Improve the clarity, flow, and impact while keeping the original meaning." := by
    rcases style with _ | st
    · rfl
    · by_cases hst : st = ""
      · rw [hst]; rfl
      · have h1 : st ≠ "improved" := fun he => h "improved" (by simp) (by rw [he])
        have h2 : st ≠ "formal" := fun he => h "formal" (by simp) (by rw [he])
        have h3 : st ≠ "casual" := fun he => h "casual" (by simp) (by rw [he])
        have h4 : st ≠ "concise" := fun he => h "concise" (by simp) (by rw [he])
        have h5 : st ≠ "expanded" := fun he => h "expanded" (by simp) (by rw [he])
        unfold rewrite_instruction
        have hkey : (if pyTruthy (some st) then pyInterp (some st) else "improved") = st := by
          simp [pyTruthy, pyInterp, hst]
        rw [hkey]
        unfold style_instructions
        dsimp only
        rw [if_neg h1, if_neg h2, if_neg h3, if_neg h4, if_neg h5]
        rfl
  refine ⟨hinstr, ?_⟩
  unfold rewrite_system
  rw [hinstr]
  rfl

/-- Witness for C6 at the unknown style "shouty". -/
theorem C6_style_fallback_witness :
    rewrite_instruction (some "shouty")
      = "Improve the clarity, flow, and impact while keeping the original meaning."
  ∧ rewrite_system (some "shouty") = rewrite_system (some "improved") :=
  C6_style_fallback (some "shouty") (by decide)

/-- Claim C7: with `source_lang = "auto"` the user message sent upstream is
exactly the raw request text; with any other source_lang it is the text
wrapped by the `Translate from X to Y:` instruction, a blank line, and the
text. -/
theorem C7_translate_user_message (text : String) (source target : Option String) :
    (source = some "auto" → translate_user text source target = text)
  ∧ (source ≠ some "auto" →
      translate_user text source target
        = "Translate from " ++ pyInterp source ++ " to " ++ pyInterp target
            ++ ":\n\n" ++ text) := by
  constructor
  · intro h
    subst h
    rfl
  · intro h
    unfold translate_user
    have hb : (source != some "auto") = true := by
      simp [bne_iff_ne]
      exact h
    rw [hb]
    rfl

/-- Witness for C7: auto passes the text through; an explicit source wraps it. -/
theorem C7_translate_user_message_witness :
    translate_user "hola" (some "auto") (some "en") = "hola"
  ∧ translate_user "hola" (some "es") (some "en")
      = "Translate from " ++ pyInterp (some "es") ++ " to " ++ pyInterp (some "en")
          ++ ":\n\n" ++ "hola" :=
  ⟨(C7_translate_user_message "hola" (some "auto") (some "en")).1 rfl,
   (C7_translate_user_message "hola" (some "es") (some "en")).2 (by decide)⟩

/-- Claim C8: the Completion Client returns, on success, the provider text
(empty string when the provider returns none), a usage triple whose missing
counters default to zero, and the resolved model id (the configured model when
the provider's is absent or empty); on failure exactly three kinds:
429 upstream-rate-limited, 502 upstream-api-error carrying the provider
message, and 500 generic-internal-error for any other exception. -/
theorem C8_call_classification (mcfg : String) (content : Option String)
    (usage : Option (Nat × Nat × Nat)) (pm : Option String) (msg : String) :
    (_call_openai mcfg (.success content usage pm)
      = .ok { content := content.getD ""
              prompt_tokens := (usage.map (fun u => u.1)).getD 0
              completion_tokens := (usage.map (fun u => u.2.1)).getD 0
              total_tokens := (usage.map (fun u => u.2.2)).getD 0
              model := if pm = none ∨ pm = some "" then mcfg else pm.getD mcfg })
  ∧ _call_openai mcfg .rateLimitError
      = .error 429 "OpenAI rate limit reached. Please try again shortly."
  ∧ _call_openai mcfg (.apiError msg) = .error 502 ("OpenAI API error: " ++ msg)
  ∧ _call_openai mcfg (.otherException msg)
      = .error 500 ("Internal error: " ++ msg) := by
  refine ⟨?_, rfl, rfl, rfl⟩
  unfold _call_openai pyOrStr
  rcases content with _ | c <;> rcases usage with _ | ⟨a, b, d⟩ <;> rcases pm with _ | m <;>
    simp only [Option.getD, Option.map] <;> norm_num
  all_goals
    first
    | rfl
    | (by_cases hc : c = "" <;> by_cases hm : m = "" <;> simp [hc, hm])
    | (by_cases hc : c = "" <;> simp [hc])
    | (by_cases hm : m = "" <;> simp [hm])

/-- Claim C9: supplying the generate defaults explicitly is an identity: a
tone of "professional" (or absent or empty) adds no tone suffix and a
language of "en" (or absent or empty) adds no language suffix, so the
composed system instruction is exactly the base prompt for the content type,
byte-identical to the one composed with the defaults. -/
theorem C9_default_identity (ty : String) (tone language : Option String)
    (htone : tone = none ∨ tone = some "" ∨ tone = some "professional")
    (hlang : language = none ∨ language = some "" ∨ language = some "en") :
    generate_system ty tone language = (SYSTEM_PROMPTS ty).getD ""
  ∧ generate_system ty tone language
      = generate_system ty (some "professional") (some "en") := by
  rcases htone with rfl | rfl | rfl <;> rcases hlang with rfl | rfl | rfl <;>
    exact ⟨rfl, rfl⟩

/-- Witness for C9 on the blog prompt with the defaults given explicitly. -/
theorem C9_default_identity_witness :
    generate_system "blog" (some "professional") (some "en")
      = (SYSTEM_PROMPTS "blog").getD ""
  ∧ generate_system "blog" (some "professional") (some "en")
      = generate_system "blog" (some "professional") (some "en") :=
  C9_default_identity "blog" (some "professional") (some "en")
    (Or.inr (Or.inr rfl)) (Or.inr (Or.inr rfl))

end WriteFlow
